import Mathlib

/-!
Shallow embedding of the dynamic REST management viewset
(api_basebone/restful/manage/views.py) of the lightning repository.

Conventions of the embedding:
* a queryset is modelled as the list of rows it would return;
* machine objects (rows, users) carry only the attributes the code reads;
* Django `with transaction.atomic()` blocks are modelled by running the
  block body on a working copy of the database state and discarding it
  (keeping the pre-transaction state) when the body raises;
* fallible code returns `Except BErr`;
* collaborator modules that are not part of src/ (relations.py, the
  operators module, the meta helpers, the signal bus) are modelled from
  the spec, each marked in its doc comment.
-/

/-- Error codes observable at the request boundary.  The embedding only
distinguishes the codes the claims talk about; collaborator oracles may
inject any of them. -/
inductive BErr where
  | relationResolution
  | validation
  | invalidFilterOperator
  | fieldDoesNotExist
  | notFound
  | reverseRelation
  | notifyFailure
  | other (code : Nat)
deriving DecidableEq, Repr

/-- One persisted instance of the primary entity type: a primary key plus
a finite map from field name to (integer-coded) value. -/
structure Row where
  id : Nat
  fields : List (String × Int)
deriving DecidableEq, Repr

/-- Attribute access on a row, `none` when the row has no such field. -/
def Row.getField (r : Row) (f : String) : Option Int :=
  (r.fields.find? (fun p => p.1 == f)).map (fun p => p.2)

/-- The requesting principal (`self.request.user`).  The viewset is guarded
by `IsAuthenticated`, so a user object is always present. -/
structure User where
  id : Int
  is_staff : Bool
  is_superuser : Bool
deriving DecidableEq, Repr

/-- BSM admin configuration for the model, as read through `getattr` with
defaults: an attribute that is absent is `none`. -/
structure AdminCfg where
  auth_filter_field : Option String
  filter_by_login_user : Option Bool
deriving DecidableEq, Repr

/-- One client filter condition, the `{field, operator, value}` triple of
`FILTER_CONDITIONS`. -/
structure FilterCondition where
  field : String
  operator : String
  value : Int
deriving DecidableEq, Repr

/-- Tree descriptor produced by `meta.tree_parent_field`: parent field
name, related accessor name and the default root value (a `none` root
value matches rows whose parent field is NULL/absent). -/
structure TreeData where
  parent_field : String
  related_name : String
  default_root : Option Int
deriving DecidableEq, Repr

/-- Relation metadata of one model field, the part of Django field
introspection that `translate_expand_fields` reads. -/
structure FieldMeta where
  name : String
  is_relation : Bool
  is_reverse : Bool
  related_model : String
  remote_field_name : String
deriving DecidableEq, Repr

/-- Metadata of one registered model.  `reverse_map` is the
reverse-relation map of the entity (forward field name to real accessor
name), modelled from the spec because `api_basebone.utils.meta` is not
part of src/. -/
structure ModelMeta where
  name : String
  fields : List FieldMeta
  reverse_map : List (String × String)
deriving DecidableEq, Repr

/-- The process-wide registry of models visible during a request. -/
structure Schema where
  models : List ModelMeta
deriving DecidableEq, Repr

/-- Lookup of a model by name in the registry. -/
def Schema.find (s : Schema) (n : String) : Option ModelMeta :=
  s.models.find? (fun m => m.name == n)

/-- Django `model._meta.get_field`: lookup of a field by the name under
which it is addressable; `none` models the `FieldDoesNotExist` raise. -/
def ModelMeta.get_field (m : ModelMeta) (v : String) : Option FieldMeta :=
  m.fields.find? (fun f => f.name == v)

/-- Modelled from the spec: `meta.get_relation_field_related_name`
(api_basebone.utils.meta is not in src/).  It consults the target
entity's reverse-relation map and yields the real accessor name for the
given forward field, or `none` when no accessor exists. -/
def get_relation_field_related_name (s : Schema) (model : String) (remote : String) : Option String :=
  (s.find model).bind (fun m => (m.reverse_map.find? (fun p => p.1 == remote)).map (fun p => p.2))

/-- Per-request context: everything `self` carries that the queryset
pipeline reads.  Expansion paths are represented as their segment lists;
Django field names are Python identifiers and cannot contain a dot, so
the dot-joined strings of the source are in bijection with these lists. -/
structure ViewCtx where
  user : User
  has_user_field : Bool
  admin_class : Option AdminCfg
  model_fields : List String
  filter_conditions : Option (List FilterCondition)
  order_by_fields : Option (List String)
  tree_data : Option TreeData
  expand_fields : Option (List (List String))
  schema : Schema
  model_meta : ModelMeta

set_option linter.unusedVariables false in
/-- Scope filter, `QuerySetMixin.get_queryset_by_filter_user`.  The local
`filter_by_login_user` is read but never consulted afterwards, exactly as
in the source.  A configured field name that is not a real field of the
model makes the storage layer raise `FieldError`, which the bare
`except Exception: pass` swallows, returning the queryset unchanged. -/
def get_queryset_by_filter_user (ctx : ViewCtx) (queryset : List Row) : List Row :=
  if ctx.user.is_staff && ctx.user.is_superuser then queryset
  else
    match ctx.has_user_field, ctx.admin_class with
    | true, some admin_class =>
        let field_name := admin_class.auth_filter_field
        let filter_by_login_user := admin_class.filter_by_login_user.getD true
        match field_name with
        | some fn =>
            if fn ∈ ctx.model_fields then
              queryset.filter (fun r => r.getField fn == some ctx.user.id)
            else queryset
        | none => queryset
    | _, _ => queryset

/-- Modelled from the spec: translation of one filter condition into a row
predicate (api_basebone.utils.operators is not in src/).  A small set of
supported operators stands for the operator table; any other operator
fails with `InvalidFilterOperator` rather than being dropped. -/
def condPred (c : FilterCondition) : Except BErr (Row → Bool) :=
  if c.operator == "=" then
    .ok (fun r => r.getField c.field == some c.value)
  else if c.operator == ">" then
    .ok (fun r => match r.getField c.field with
      | some x => decide (c.value < x)
      | none => false)
  else if c.operator == "<" then
    .ok (fun r => match r.getField c.field with
      | some x => decide (x < c.value)
      | none => false)
  else .error .invalidFilterOperator

/-- Modelled from the spec: `build_filter_conditions` composes the client
conditions into one AND predicate; an empty list degrades to no filter. -/
def build_filter_conditions (cs : List FilterCondition) : Except BErr (Option (Row → Bool)) :=
  match cs with
  | [] => .ok none
  | _ =>
    (cs.mapM condPred).map (fun ps => some (fun r => ps.all (fun p => p r)))

/-- Client-condition stage, `QuerySetMixin.get_queryset_by_filter_conditions`:
an empty queryset or an absent/empty condition list short-circuits. -/
def get_queryset_by_filter_conditions (ctx : ViewCtx) (queryset : List Row) : Except BErr (List Row) :=
  if queryset.isEmpty then .ok queryset
  else
    match ctx.filter_conditions with
    | none => .ok queryset
    | some [] => .ok queryset
    | some fcs =>
        match build_filter_conditions fcs with
        | .error e => .error e
        | .ok none => .ok queryset
        | .ok (some p) => .ok (queryset.filter p)

/-- Comparison of two optional field values (NULLs order first). -/
def cmpVal : Option Int → Option Int → Ordering
  | none, none => .eq
  | none, some _ => .lt
  | some _, none => .gt
  | some a, some b => compare a b

/-- Comparison of two rows under one ordering key; a leading dash marks a
descending key, as in the source request format. -/
def cmpField (f : String) (r1 r2 : Row) : Ordering :=
  if f.startsWith "-" then
    cmpVal (r2.getField (f.drop 1)) (r1.getField (f.drop 1))
  else
    cmpVal (r1.getField f) (r2.getField f)

/-- Lexicographic comparison under a key list. -/
def cmpFields : List String → Row → Row → Ordering
  | [], _, _ => .eq
  | f :: fs, r1, r2 =>
      match cmpField f r1 r2 with
      | .eq => cmpFields fs r1 r2
      | o => o

/-- Stable insertion used by the ordering stage. -/
def insertRow (fs : List String) (x : Row) : List Row → List Row
  | [] => [x]
  | y :: ys =>
      match cmpFields fs x y with
      | .lt => x :: y :: ys
      | _ => y :: insertRow fs x ys

/-- Stable sort standing for the storage engine `order_by`. -/
def orderRows (fs : List String) : List Row → List Row
  | [] => []
  | x :: xs => insertRow fs x (orderRows fs xs)

/-- Ordering stage, `QuerySetMixin.get_queryset_by_order_by`: applies only
when the request carries a non-empty list. -/
def get_queryset_by_order_by (ctx : ViewCtx) (queryset : List Row) : List Row :=
  match ctx.order_by_fields with
  | some fs => if fs.isEmpty then queryset else orderRows fs queryset
  | none => queryset

/-- Tree stage, `QuerySetMixin.get_queryset_by_with_tree`: restricts to
rows whose parent field equals the configured default root value. -/
def get_queryset_by_with_tree (ctx : ViewCtx) (queryset : List Row) : List Row :=
  match ctx.tree_data with
  | some td => queryset.filter (fun r => r.getField td.parent_field == td.default_root)
  | none => queryset

/-- Pipeline driver, `QuerySetMixin._get_queryset`: the four stages in the
order of the `methods` list of the source. -/
def _get_queryset (ctx : ViewCtx) (queryset : List Row) : Except BErr (List Row) :=
  let q1 := get_queryset_by_filter_user ctx queryset
  match get_queryset_by_filter_conditions ctx q1 with
  | .error e => .error e
  | .ok q2 => .ok (get_queryset_by_with_tree ctx (get_queryset_by_order_by ctx q2))

/-- One iteration of the inner loop of
`GenericViewMixin.translate_expand_fields`: the segment is looked up on
the current model (`FieldDoesNotExist` propagates as `none`); a
reverse-relation segment is rewritten to the accessor from the
reverse-relation map when one exists, otherwise it is kept verbatim; a
relation segment moves the walk to the related model. -/
def segStep (s : Schema) (m : ModelMeta) (v : String) : Option (String × ModelMeta) :=
  match m.get_field v with
  | none => none
  | some f =>
      match (if f.is_relation then s.find f.related_model else some m) with
      | none => none
      | some m2 =>
          if f.is_reverse then
            some ((get_relation_field_related_name s f.related_model f.remote_field_name).getD v, m2)
          else some (v, m2)

/-- Whole-path walk of `translate_expand_fields`, iterating `segStep`
over the segments. -/
def translateSegments (s : Schema) : ModelMeta → List String → Option (List String)
  | _, [] => some []
  | m, v :: rest =>
      match segStep s m v with
      | none => none
      | some (v2, m2) => (translateSegments s m2 rest).map (fun tail => v2 :: tail)

/-- `GenericViewMixin.translate_expand_fields` over the whole path list
(the in-place loop of the source, written as a fold that aborts on the
first raised exception). -/
def translate_expand_fields (s : Schema) (m : ModelMeta) : List (List String) → Option (List (List String))
  | [] => some []
  | p :: ps =>
      match translateSegments s m p with
      | none => none
      | some p2 => (translate_expand_fields s m ps).map (fun rest => p2 :: rest)

/-- Read entry point, `GenericViewMixin.get_queryset`: without expansion
fields the pipeline runs on all instances; with expansion fields the
paths are translated first (a failed lookup propagates) and handed to the
storage layer as prefetch hints, which do not change the primary row
set. -/
def get_queryset (ctx : ViewCtx) (allRows : List Row) : Except BErr (List Row) :=
  match ctx.expand_fields with
  | none => _get_queryset ctx allRows
  | some [] => _get_queryset ctx allRows
  | some efs =>
      match translate_expand_fields ctx.schema ctx.model_meta efs with
      | none => .error .fieldDoesNotExist
      | some _ => _get_queryset ctx allRows

/-- Output-shape descriptor built by `GenericViewMixin.get_serializer_class`:
a flat serializer when no expansion is requested, else a nested serializer
graph over the expansion paths, both optionally combined with the tree
descriptor. -/
inductive SerializerShape where
  | flat (model : String) (tree : Option TreeData)
  | nested (model : String) (expand : List (List String)) (tree : Option TreeData)
deriving DecidableEq, Repr

/-- `GenericViewMixin.get_serializer_class`: dispatch on the presence of
expansion fields (`if not expand_fields` treats an absent value and an
empty list alike). -/
def get_serializer_class (model : String) (expand_fields : Option (List (List String))) (tree_data : Option TreeData) : SerializerShape :=
  match expand_fields with
  | none => .flat model tree_data
  | some [] => .flat model tree_data
  | some efs => .nested model efs tree_data

/-- Rendering selected by the export endpoint. -/
inductive ExportRender where
  | csv
  | excel
deriving DecidableEq, Repr

/-- `CommonManageViewSet.export_file`: the `fileformat` query parameter
defaults to csv when absent and falls back to csv when not in the valid
list. -/
def export_file (fileformat : Option String) : ExportRender :=
  let csv_file := "csv"
  let excel_file := "excel"
  let valid_list := [csv_file, excel_file]
  let file_type := fileformat.getD csv_file
  let file_type := if file_type ∈ valid_list then file_type else csv_file
  if file_type == csv_file then .csv else .excel

/-- Database state visible to one request: the committed instances of the
primary entity type, plus an abstract log of writes to other entity
types done by the relation handlers. -/
structure DB where
  primary : List Row
  aux : List Int
deriving DecidableEq, Repr

/-- Collaborator behavior for one create request.  `forward` and
`reverse` are oracles for `forward_relation_hand` and
`reverse_relation_hand` (api_basebone/restful/relations.py is not in
src/): each may transform the transaction state or raise.  `valid` is the
verdict of `serializer.is_valid(raise_exception=True)`, `new_row` the
instance persisted by `perform_create`, and `notify_ok` tells whether
`post_save.send` raises. -/
structure CreateEnv where
  forward : DB → Except BErr DB
  valid : Bool
  new_row : Row
  reverse : DB → Option Row → Except BErr DB
  notify_ok : Bool

/-- Collaborator behavior for one update request, analogous to
`CreateEnv`; `target_id` is the pk of the addressed instance and
`updated_row` the instance returned by `perform_update`. -/
structure UpdateEnv where
  forward : DB → Except BErr DB
  target_id : Nat
  valid : Bool
  updated_row : Row
  reverse : DB → Option Row → Except BErr DB
  notify_ok : Bool

/-- Outcome of one request: the committed database state, the response
(success payload is the serialized instance, an absent instance
serializes to an empty payload), and whether the lifecycle notification
was delivered. -/
structure RequestOutcome where
  db : DB
  result : Except BErr (Option Row)
  notified : Bool

/-- Body of the first `with transaction.atomic()` block of
`CommonManageViewSet.create`: forward relation resolution, form
validation, persist, requery of the new instance through
`self.get_queryset().filter(id=...).first()`, then reverse relation
resolution.  Any raise aborts the whole block. -/
def create_first_tx (env : CreateEnv) (ctx : ViewCtx) (db : DB) : Except BErr (DB × Option Row) :=
  match env.forward db with
  | .error e => .error e
  | .ok db1 =>
      if env.valid = false then .error .validation
      else
        let db2 : DB := { db1 with primary := db1.primary ++ [env.new_row] }
        match get_queryset ctx db2.primary with
        | .error e => .error e
        | .ok rows =>
            let requeried := (rows.filter (fun r => r.id == env.new_row.id)).head?
            match env.reverse db2 requeried with
            | .error e => .error e
            | .ok db3 => .ok (db3, requeried)

/-- `CommonManageViewSet.create`: the first transaction commits or rolls
back as a whole; afterwards a second transaction emits the post-save
notification, whose failure leaves the committed state in place but
propagates to the request boundary (there is no handler around it). -/
def create (env : CreateEnv) (ctx : ViewCtx) (db : DB) : RequestOutcome :=
  match create_first_tx env ctx db with
  | .error e => { db := db, result := .error e, notified := false }
  | .ok (dbC, inst) =>
      if env.notify_ok then { db := dbC, result := .ok inst, notified := true }
      else { db := dbC, result := .error .notifyFailure, notified := false }

/-- Replacement of the addressed row by the saved one, the effect of
`perform_update` on the primary table. -/
def replaceRow (rows : List Row) (tid : Nat) (nr : Row) : List Row :=
  rows.map (fun r => if r.id == tid then nr else r)

/-- Body of the first `with transaction.atomic()` block of
`CommonManageViewSet.update`: forward relation resolution, `get_object`
lookup of the target inside the scoped and filtered queryset (a miss is
`NotFound`), validation, persist, then reverse relation resolution. -/
def update_first_tx (env : UpdateEnv) (ctx : ViewCtx) (db : DB) : Except BErr (DB × Row) :=
  match env.forward db with
  | .error e => .error e
  | .ok db1 =>
      match get_queryset ctx db1.primary with
      | .error e => .error e
      | .ok rows =>
          match (rows.filter (fun r => r.id == env.target_id)).head? with
          | none => .error .notFound
          | some _ =>
              if env.valid = false then .error .validation
              else
                let db2 : DB := { db1 with primary := replaceRow db1.primary env.target_id env.updated_row }
                match env.reverse db2 (some env.updated_row) with
                | .error e => .error e
                | .ok db3 => .ok (db3, env.updated_row)

/-- `CommonManageViewSet.update`: same two-transaction shape as create. -/
def update (env : UpdateEnv) (ctx : ViewCtx) (db : DB) : RequestOutcome :=
  match update_first_tx env ctx db with
  | .error e => { db := db, result := .error e, notified := false }
  | .ok (dbC, inst) =>
      if env.notify_ok then { db := dbC, result := .ok (some inst), notified := true }
      else { db := dbC, result := .error .notifyFailure, notified := false }

/-- Coherence of a schema registry with respect to reverse accessors: when
a reverse field is rewritten to its accessor name, that accessor is
itself addressable on the same model and denotes a reverse field with the
same relation data.  This is how Django registers reverse descriptors; it
is the well-formedness under which re-translation is stable. -/
def reverseCoherentB (s : Schema) : Bool :=
  s.models.all (fun m => m.fields.all (fun f =>
    !f.is_reverse ||
      (match get_relation_field_related_name s f.related_model f.remote_field_name with
        | none => true
        | some a =>
            match m.get_field a with
            | none => false
            | some f2 =>
                f2.is_reverse && (f2.is_relation == f.is_relation) &&
                  (f2.related_model == f.related_model) &&
                  (f2.remote_field_name == f.remote_field_name))))

/-! Concrete fixtures used by the witnesses and counterexamples. -/

/-- A model with no fields, for contexts that never touch expansion. -/
def noModel : ModelMeta := { name := "m", fields := [], reverse_map := [] }

/-- A registry holding only `noModel`. -/
def noSchema : Schema := { models := [noModel] }

/-- An ordinary principal. -/
def uOrdinary : User := { id := 1, is_staff := false, is_superuser := false }

/-- A fully elevated principal (staff and superuser). -/
def uElevated : User := { id := 1, is_staff := true, is_superuser := true }

/-- A superuser that is not staff. -/
def uSuperOnly : User := { id := 1, is_staff := false, is_superuser := true }

/-- Admin configuration with a scoping field and no explicit enable flag. -/
def cfgAuthor : AdminCfg := { auth_filter_field := some "author", filter_by_login_user := none }

/-- Admin configuration with a scoping field and the enable flag
explicitly disabled. -/
def cfgFlagOff : AdminCfg := { auth_filter_field := some "author", filter_by_login_user := some false }

/-- A row owned by principal 1. -/
def rowMine : Row := { id := 1, fields := [("author", 1), ("status", 0)] }

/-- A row owned by principal 2. -/
def rowOther : Row := { id := 2, fields := [("author", 2), ("status", 1)] }

/-- Context of a request by an elevated principal with no filters, no
ordering, no tree descriptor and no expansion. -/
def ctxPlain : ViewCtx :=
  { user := uElevated, has_user_field := false, admin_class := none,
    model_fields := ["author", "status"], filter_conditions := none,
    order_by_fields := none, tree_data := none, expand_fields := none,
    schema := noSchema, model_meta := noModel }

/-- Context of an ordinary principal against a model with a
user-referencing field whose admin configuration disables
filter-by-login-user. -/
def ctxFlagOff : ViewCtx :=
  { ctxPlain with user := uOrdinary, has_user_field := true, admin_class := some cfgFlagOff }

/-- Context of an ordinary principal with scoping configured and
enabled (flag absent, defaulting to enabled). -/
def ctxScoped : ViewCtx :=
  { ctxPlain with user := uOrdinary, has_user_field := true, admin_class := some cfgAuthor }

/-- Context of a superuser that is not staff, otherwise as `ctxScoped`. -/
def ctxSuperOnly : ViewCtx := { ctxScoped with user := uSuperOnly }

/-- Field metadata of the forward relation `post.author`. -/
def fldPostAuthor : FieldMeta :=
  { name := "author", is_relation := true, is_reverse := false,
    related_model := "user", remote_field_name := "author" }

/-- Field metadata of the plain column `post.status`. -/
def fldPostStatus : FieldMeta :=
  { name := "status", is_relation := false, is_reverse := false,
    related_model := "", remote_field_name := "" }

/-- Field metadata of the forward relation `user.profile`. -/
def fldUserProfile : FieldMeta :=
  { name := "profile", is_relation := true, is_reverse := false,
    related_model := "profile", remote_field_name := "profile" }

/-- Reverse descriptor of posts on user, addressable under the default
accessor name. -/
def fldUserPostSet : FieldMeta :=
  { name := "post_set", is_relation := true, is_reverse := true,
    related_model := "post", remote_field_name := "author" }

/-- Reverse descriptor of posts on user, addressable under the
configured accessor name. -/
def fldUserPosts : FieldMeta :=
  { name := "posts", is_relation := true, is_reverse := true,
    related_model := "post", remote_field_name := "author" }

/-- The post model: a forward relation to user plus a plain column; its
reverse-relation map names the accessor of the author relation. -/
def postMeta : ModelMeta :=
  { name := "post", fields := [fldPostAuthor, fldPostStatus],
    reverse_map := [("author", "posts")] }

/-- The user model with a forward relation and the two addressable
reverse descriptors. -/
def userMeta : ModelMeta :=
  { name := "user", fields := [fldUserProfile, fldUserPostSet, fldUserPosts],
    reverse_map := [] }

/-- The profile model, a leaf. -/
def profileMeta : ModelMeta :=
  { name := "profile", fields := [], reverse_map := [] }

/-- A coherent blog registry. -/
def blogSchema : Schema := { models := [postMeta, userMeta, profileMeta] }

/-- Model a with a reverse descriptor towards model b whose target has an
empty reverse-relation map, so no accessor exists for the segment. -/
def aMeta : ModelMeta :=
  { name := "a",
    fields := [{ name := "bs", is_relation := true, is_reverse := true,
                 related_model := "b", remote_field_name := "a" }],
    reverse_map := [] }

/-- Model b: the forward counterpart of the reverse descriptor of a,
with no reverse-relation map entry. -/
def bMeta : ModelMeta :=
  { name := "b",
    fields := [{ name := "a", is_relation := true, is_reverse := false,
                 related_model := "a", remote_field_name := "a" }],
    reverse_map := [] }

/-- Registry for the missing-accessor scenario. -/
def abSchema : Schema := { models := [aMeta, bMeta] }

/-- Collaborator oracle for a create whose phases all succeed and whose
notification dispatch raises. -/
def envNotifyFail : CreateEnv :=
  { forward := fun db => .ok db, valid := true, new_row := rowMine,
    reverse := fun db _ => .ok db, notify_ok := false }

/-- Collaborator oracle for a create whose reverse relation resolution
raises. -/
def envReverseFail : CreateEnv :=
  { forward := fun db => .ok db, valid := true, new_row := rowMine,
    reverse := fun _ _ => .error .reverseRelation, notify_ok := true }

/-- Collaborator oracle for a fully successful create of a row owned by
principal 9, used with a scoped context so the post-persist requery
misses. -/
def envMissOk : CreateEnv :=
  { forward := fun db => .ok db, valid := true,
    new_row := { id := 5, fields := [("author", 9)] },
    reverse := fun db _ => .ok db, notify_ok := true }

/-- Collaborator oracle for an update whose notification dispatch
raises. -/
def uenvNotifyFail : UpdateEnv :=
  { forward := fun db => .ok db, target_id := 1, valid := true,
    updated_row := { id := 1, fields := [("author", 1), ("status", 2)] },
    reverse := fun db _ => .ok db, notify_ok := false }

/-- An empty database. -/
def dbEmpty : DB := { primary := [], aux := [] }

/-- A database holding exactly the row owned by principal 1. -/
def dbMine : DB := { primary := [rowMine], aux := [] }


/-! Theorems settling the claims. -/

/-- Claim C9: for every export request, a fileformat value equal to csv or
excel selects the corresponding rendering, and any other fileformat value,
including an absent one, falls back to csv rendering; the selector is a
total function, so no value raises an error. -/
theorem export_fileformat_selection :
    export_file (some "csv") = .csv ∧
    export_file (some "excel") = .excel ∧
    export_file none = .csv ∧
    ∀ s : String, s ≠ "excel" → export_file (some s) = .csv := by
  refine ⟨rfl, rfl, rfl, ?_⟩
  intro s hs
  by_cases hc : s = "csv"
  · subst hc; rfl
  · simp [export_file, hc, hs]

/-- Witness for claim C9: the unsupported value xml falls back to csv. -/
theorem export_fileformat_selection_witness : export_file (some "xml") = .csv :=
  export_fileformat_selection.2.2.2 "xml" (by decide)

/-- Claim C4 (code bug): the admin configuration explicitly disables
filter-by-login-user, a scoping field name is configured, the principal is
ordinary, and the source still restricts the queryset to the rows of the
principal: the flag is read into a local variable that is never consulted
afterwards, so scoping is applied regardless of the flag. -/
theorem filter_by_login_user_flag_ignored :
    cfgFlagOff.filter_by_login_user = some false ∧
    get_queryset_by_filter_user ctxFlagOff [rowMine, rowOther] = [rowMine] :=
  ⟨rfl, rfl⟩

/-- Claim C3: the user-scope filter returns the query unchanged for a
staff superuser, for a model without a user-referencing field, without an
admin configuration, or without a configured scoping field name; otherwise,
with a configured scoping field that is a real field of the model, it
restricts the query to exactly the rows whose scoping field equals the
identity of the principal. -/
theorem scope_filter_cases (ctx : ViewCtx) (qs : List Row) :
    (ctx.user.is_staff = true → ctx.user.is_superuser = true →
      get_queryset_by_filter_user ctx qs = qs) ∧
    (ctx.has_user_field = false → get_queryset_by_filter_user ctx qs = qs) ∧
    (ctx.admin_class = none → get_queryset_by_filter_user ctx qs = qs) ∧
    (∀ ac, ctx.admin_class = some ac → ac.auth_filter_field = none →
      get_queryset_by_filter_user ctx qs = qs) ∧
    (∀ ac fn, (ctx.user.is_staff && ctx.user.is_superuser) = false →
      ctx.has_user_field = true → ctx.admin_class = some ac →
      ac.auth_filter_field = some fn → fn ∈ ctx.model_fields →
      get_queryset_by_filter_user ctx qs =
        qs.filter (fun r => r.getField fn == some ctx.user.id)) := by
  refine ⟨?_, ?_, ?_, ?_, ?_⟩
  · intro hst hsu
    simp [get_queryset_by_filter_user, hst, hsu]
  · intro h
    by_cases he : (ctx.user.is_staff && ctx.user.is_superuser) = true <;>
      simp [get_queryset_by_filter_user, he, h]
  · intro h
    by_cases he : (ctx.user.is_staff && ctx.user.is_superuser) = true <;>
      cases hu : ctx.has_user_field <;>
      simp [get_queryset_by_filter_user, he, h, hu]
  · intro ac hac hfn
    by_cases he : (ctx.user.is_staff && ctx.user.is_superuser) = true <;>
      cases hu : ctx.has_user_field <;>
      simp [get_queryset_by_filter_user, he, hac, hfn, hu]
  · intro ac fn he hu hac hfn hmem
    simp [get_queryset_by_filter_user, he, hu, hac, hfn, hmem]

/-- Witness for claim C3: an ordinary principal with scoping configured on
the author field sees exactly the rows it owns. -/
theorem scope_filter_cases_witness :
    get_queryset_by_filter_user ctxScoped [rowMine, rowOther] =
      [rowMine, rowOther].filter (fun r => r.getField "author" == some uOrdinary.id) ∧
    get_queryset_by_filter_user ctxScoped [rowMine, rowOther] = [rowMine] := by
  have h := (scope_filter_cases ctxScoped [rowMine, rowOther]).2.2.2.2
    cfgAuthor "author" rfl rfl rfl rfl (by decide)
  exact ⟨h, by rw [h]; rfl⟩

/-- Claim C10: the elevated bypass of user scoping requires staff and
superuser at once; for every principal lacking one of the two, the scope
filter evaluates exactly as for a fully ordinary principal with the same
identity, while a staff superuser bypasses scoping. -/
theorem elevated_requires_staff_and_superuser (ctx : ViewCtx) (qs : List Row) :
    ((ctx.user.is_staff && ctx.user.is_superuser) = false →
      get_queryset_by_filter_user ctx qs =
        get_queryset_by_filter_user
          { ctx with user := { id := ctx.user.id, is_staff := false, is_superuser := false } } qs) ∧
    (ctx.user.is_staff = true → ctx.user.is_superuser = true →
      get_queryset_by_filter_user ctx qs = qs) := by
  constructor
  · intro he
    simp [get_queryset_by_filter_user, he]
  · intro hst hsu
    simp [get_queryset_by_filter_user, hst, hsu]

/-- Witness for claim C10: a superuser that is not staff is still scoped
and sees only its own rows. -/
theorem elevated_requires_staff_and_superuser_witness :
    get_queryset_by_filter_user ctxSuperOnly [rowMine, rowOther] = [rowMine] := by
  have h := (elevated_requires_staff_and_superuser ctxSuperOnly [rowMine, rowOther]).1 (by decide)
  rw [h]; rfl

/-- Claim C5: the read result set is built in the fixed stage order user
scoping, client filter conditions, ordering, tree-root restriction, the
pipeline starting from all instances of the entity type when no expansion
is requested; and each stage whose input is absent or empty leaves the
query unchanged. -/
theorem pipeline_stage_order (ctx : ViewCtx) :
    (∀ qs, _get_queryset ctx qs =
      (get_queryset_by_filter_conditions ctx (get_queryset_by_filter_user ctx qs)).map
        (fun q2 => get_queryset_by_with_tree ctx (get_queryset_by_order_by ctx q2))) ∧
    (∀ qs, ctx.expand_fields = none → get_queryset ctx qs = _get_queryset ctx qs) ∧
    ((ctx.filter_conditions = none ∨ ctx.filter_conditions = some []) →
      ∀ qs, get_queryset_by_filter_conditions ctx qs = .ok qs) ∧
    ((ctx.order_by_fields = none ∨ ctx.order_by_fields = some []) →
      ∀ qs, get_queryset_by_order_by ctx qs = qs) ∧
    (ctx.tree_data = none → ∀ qs, get_queryset_by_with_tree ctx qs = qs) := by
  refine ⟨?_, ?_, ?_, ?_, ?_⟩
  · intro qs
    cases h : get_queryset_by_filter_conditions ctx (get_queryset_by_filter_user ctx qs) <;>
      simp [_get_queryset, h, Except.map]
  · intro qs h
    simp [get_queryset, h]
  · rintro (h | h) qs <;>
      · unfold get_queryset_by_filter_conditions
        rw [h]
        split <;> rfl
  · rintro (h | h) qs <;> simp [get_queryset_by_order_by, h]
  · intro h qs
    simp [get_queryset_by_with_tree, h]

/-- Witness for claim C5: with every stage input absent the pipeline is
the identity on the base instance set. -/
theorem pipeline_stage_order_witness :
    get_queryset ctxPlain [rowOther, rowMine] = .ok [rowOther, rowMine] ∧
    get_queryset_by_with_tree ctxPlain [rowMine] = [rowMine] := by
  have h := pipeline_stage_order ctxPlain
  constructor
  · rw [h.2.1 [rowOther, rowMine] rfl]
    rfl
  · exact h.2.2.2.2 rfl [rowMine]

/-- Claim C1 (counterexample): a create whose write phases all succeed but
whose notification dispatch raises keeps the committed write, yet the
request fails: there is no handler around the send, so the exception of
the second transaction propagates instead of a success response. -/
theorem notify_failure_fails_request :
    (create envNotifyFail ctxPlain dbEmpty).db.primary = [rowMine] ∧
    (create envNotifyFail ctxPlain dbEmpty).result = .error .notifyFailure ∧
    (create envNotifyFail ctxPlain dbEmpty).notified = false :=
  ⟨rfl, rfl, rfl⟩

/-- Claim C1 (amended): for every create or update request the lifecycle
notification runs in a second transaction entered only after the first
transaction committed; a failure raised while emitting the notification
does not roll back the committed write, but it propagates, so the request
fails instead of returning success. -/
theorem second_transaction_after_commit (cenv : CreateEnv) (uenv : UpdateEnv)
    (ctx : ViewCtx) (db : DB) :
    ((create cenv ctx db).notified = true →
      ∃ p, create_first_tx cenv ctx db = .ok p ∧ (create cenv ctx db).db = p.1) ∧
    (∀ dbC inst, create_first_tx cenv ctx db = .ok (dbC, inst) → cenv.notify_ok = false →
      create cenv ctx db = { db := dbC, result := .error .notifyFailure, notified := false }) ∧
    ((update uenv ctx db).notified = true →
      ∃ p, update_first_tx uenv ctx db = .ok p ∧ (update uenv ctx db).db = p.1) ∧
    (∀ dbC inst, update_first_tx uenv ctx db = .ok (dbC, inst) → uenv.notify_ok = false →
      update uenv ctx db = { db := dbC, result := .error .notifyFailure, notified := false }) := by
  refine ⟨?_, ?_, ?_, ?_⟩
  · intro hn
    cases h : create_first_tx cenv ctx db with
    | error e => rw [create, h] at hn; simp at hn
    | ok p =>
        refine ⟨p, rfl, ?_⟩
        cases hnot : cenv.notify_ok <;> simp [create, h, hnot]
  · intro dbC inst h hnot
    simp [create, h, hnot]
  · intro hn
    cases h : update_first_tx uenv ctx db with
    | error e => rw [update, h] at hn; simp at hn
    | ok p =>
        refine ⟨p, rfl, ?_⟩
        cases hnot : uenv.notify_ok <;> simp [update, h, hnot]
  · intro dbC inst h hnot
    simp [update, h, hnot]

/-- Witness for claim C1 (amended): a concrete create whose notification
dispatch raises keeps the committed row and surfaces the failure. -/
theorem second_transaction_after_commit_witness :
    create envNotifyFail ctxPlain dbEmpty =
      { db := { primary := [rowMine], aux := [] },
        result := .error .notifyFailure, notified := false } :=
  (second_transaction_after_commit envNotifyFail uenvNotifyFail ctxPlain dbEmpty).2.1
    { primary := [rowMine], aux := [] } (some rowMine) rfl rfl

/-- Claim C2: forward relation resolution, validation, persist, requery
and reverse relation resolution of a create run inside one atomic
transaction: whenever its body raises, the database is left exactly as
before the request, and when reverse relation resolution always raises,
the body does raise, so the created instance of the primary entity type
does not persist. -/
theorem create_transaction_atomic (env : CreateEnv) (ctx : ViewCtx) (db : DB) :
    (∀ e, create_first_tx env ctx db = .error e →
      create env ctx db = { db := db, result := .error e, notified := false }) ∧
    ((∀ d i, ∃ e2, env.reverse d i = .error e2) →
      ∃ e2, create_first_tx env ctx db = .error e2 ∧
        create env ctx db = { db := db, result := .error e2, notified := false }) := by
  constructor
  · intro e h
    simp [create, h]
  · intro hrev
    have hb : ∃ e2, create_first_tx env ctx db = .error e2 := by
      unfold create_first_tx
      cases hf : env.forward db with
      | error e => exact ⟨e, rfl⟩
      | ok db1 =>
          cases hv : env.valid with
          | false => exact ⟨.validation, by simp⟩
          | true =>
              simp only [Bool.true_eq_false, if_false]
              cases hq : get_queryset ctx (db1.primary ++ [env.new_row]) with
              | error e => exact ⟨e, rfl⟩
              | ok rows =>
                  obtain ⟨e2, hre⟩ := hrev { db1 with primary := db1.primary ++ [env.new_row] }
                    ((rows.filter (fun r => r.id == env.new_row.id)).head?)
                  exact ⟨e2, by simp only [hre]⟩
    obtain ⟨e2, h⟩ := hb
    exact ⟨e2, h, by simp [create, h]⟩

/-- Witness for claim C2: a concrete create whose reverse relation
resolution raises leaves the database untouched and fails. -/
theorem create_transaction_atomic_witness :
    create envReverseFail ctxPlain dbEmpty =
      { db := dbEmpty, result := .error .reverseRelation, notified := false } :=
  (create_transaction_atomic envReverseFail ctxPlain dbEmpty).1 .reverseRelation rfl

/-- Claim C8 (counterexample): a create whose post-persist requery finds
no row (here because user scoping excludes the new instance) does not
fail: reverse resolution runs against the absent instance, the write
commits, the notification fires and the response is a success with an
empty payload. -/
theorem requery_miss_not_fatal :
    create envMissOk ctxScoped dbEmpty =
      { db := { primary := [{ id := 5, fields := [("author", 9)] }], aux := [] },
        result := .ok none, notified := true } := rfl

/-- Claim C8 (amended): after persisting, the created instance is
requeried through the same read queryset pipeline; when that requery
yields no row, no error is raised: the create proceeds with the absent
instance, commits, and responds successfully with an empty payload. -/
theorem requery_after_persist (env : CreateEnv) (ctx : ViewCtx) (db db1 db3 : DB)
    (rows : List Row)
    (hf : env.forward db = .ok db1)
    (hv : env.valid = true)
    (hq : get_queryset ctx (db1.primary ++ [env.new_row]) = .ok rows)
    (hmiss : (rows.filter (fun r => r.id == env.new_row.id)).head? = none)
    (hr : env.reverse { db1 with primary := db1.primary ++ [env.new_row] } none = .ok db3)
    (hn : env.notify_ok = true) :
    create env ctx db = { db := db3, result := .ok none, notified := true } := by
  have htx : create_first_tx env ctx db = .ok (db3, none) := by
    unfold create_first_tx
    rw [hf, hv]
    simp only [Bool.true_eq_false, if_false, hq, hmiss, hr]
  simp [create, htx, hn]

/-- Witness for claim C8 (amended): the concrete requery-miss create. -/
theorem requery_after_persist_witness :
    create envMissOk ctxScoped dbEmpty =
      { db := { primary := [{ id := 5, fields := [("author", 9)] }], aux := [] },
        result := .ok none, notified := true } :=
  requery_after_persist envMissOk ctxScoped dbEmpty dbEmpty
    { primary := [{ id := 5, fields := [("author", 9)] }], aux := [] } []
    rfl rfl rfl rfl rfl rfl

/-- Claim C6 (counterexample): the target entity of the reverse segment bs
has no accessor in its reverse-relation map, yet resolution does not fail:
the segment is handed on unchanged and translation succeeds. -/
theorem reverse_segment_without_accessor_kept :
    get_relation_field_related_name abSchema "b" "a" = none ∧
    translate_expand_fields abSchema aMeta [["bs"]] = some [["bs"]] :=
  ⟨rfl, rfl⟩

/-- Claim C6 (amended): a segment naming a reverse relation is rewritten
to the real accessor name obtained from the target entity's
reverse-relation map when such an accessor exists; when none exists the
segment is kept verbatim, no error is raised, and the walk continues on
the related model either way. -/
theorem reverse_segment_rewrite (s : Schema) (m m2 : ModelMeta) (v : String)
    (rest : List String) (f : FieldMeta)
    (hf : m.get_field v = some f) (hrev : f.is_reverse = true)
    (hrel : f.is_relation = true) (hm2 : s.find f.related_model = some m2) :
    translateSegments s m (v :: rest) =
      (translateSegments s m2 rest).map
        (fun tail =>
          ((get_relation_field_related_name s f.related_model f.remote_field_name).getD v)
            :: tail) := by
  have hstep : segStep s m v =
      some ((get_relation_field_related_name s f.related_model f.remote_field_name).getD v, m2) := by
    unfold segStep
    rw [hf]
    simp [hrev, hrel, hm2]
  simp [translateSegments, hstep]

/-- Witness for claim C6 (amended): the default accessor segment post_set
is rewritten to the configured accessor posts. -/
theorem reverse_segment_rewrite_witness :
    translateSegments blogSchema userMeta ["post_set"] = some ["posts"] := by
  have h := reverse_segment_rewrite blogSchema userMeta postMeta "post_set" []
    fldUserPostSet rfl rfl rfl rfl
  simpa using h

/-- Extraction lemma for `reverseCoherentB`: a reverse field whose
accessor lookup succeeds has a coherent counterpart addressable under the
accessor name. -/
theorem reverseCoherent_spec {s : Schema} (h : reverseCoherentB s = true)
    {m : ModelMeta} (hm : m ∈ s.models) {f : FieldMeta} (hf : f ∈ m.fields)
    (hrev : f.is_reverse = true) {a : String}
    (ha : get_relation_field_related_name s f.related_model f.remote_field_name = some a) :
    ∃ f2, m.get_field a = some f2 ∧ f2.is_reverse = true ∧
      f2.is_relation = f.is_relation ∧ f2.related_model = f.related_model ∧
      f2.remote_field_name = f.remote_field_name := by
  rw [reverseCoherentB, List.all_eq_true] at h
  have h1 := h m hm
  rw [List.all_eq_true] at h1
  have h2 := h1 f hf
  rw [hrev, ha] at h2
  simp only [Bool.not_true, Bool.false_or] at h2
  cases hg : m.get_field a with
  | none => rw [hg] at h2; exact absurd h2 (by simp)
  | some f2 =>
      rw [hg] at h2
      simp only [Bool.and_eq_true, beq_iff_eq] at h2
      exact ⟨f2, rfl, h2.1.1.1, h2.1.1.2, h2.1.2, h2.2⟩

/-- A step of the segment walk stays inside the registry. -/
theorem segStep_mem {s : Schema} {m : ModelMeta} (hm : m ∈ s.models)
    {v v2 : String} {m2 : ModelMeta} (h : segStep s m v = some (v2, m2)) :
    m2 ∈ s.models := by
  unfold segStep at h
  split at h
  · exact absurd h (by simp)
  · rename_i f hf
    split at h
    · exact absurd h (by simp)
    · rename_i m3 hm3
      have hm3mem : m3 ∈ s.models := by
        cases hrel : f.is_relation with
        | false =>
            rw [hrel] at hm3
            simp only [Bool.false_eq_true, if_false, Option.some.injEq] at hm3
            exact hm3 ▸ hm
        | true =>
            rw [hrel] at hm3
            simp only [if_true] at hm3
            exact List.mem_of_find?_eq_some hm3
      split at h <;> (cases h; exact hm3mem)

/-- On a coherent registry, one walk step is stable: stepping from the
name it produced yields the same rewritten name and the same next
model. -/
theorem segStep_idem {s : Schema} (hco : reverseCoherentB s = true)
    {m : ModelMeta} (hm : m ∈ s.models) {v v2 : String} {m2 : ModelMeta}
    (h : segStep s m v = some (v2, m2)) :
    segStep s m v2 = some (v2, m2) := by
  unfold segStep at h ⊢
  split at h
  · exact absurd h (by simp)
  · rename_i f hf
    split at h
    · exact absurd h (by simp)
    · rename_i m3 hm3
      split at h
      · rename_i hrev
        cases h
        cases hacc : get_relation_field_related_name s f.related_model f.remote_field_name with
        | none =>
            simp only [hacc, Option.getD_none]
            simp [hf, hm3, hrev, hacc]
        | some a =>
            simp only [hacc, Option.getD_some]
            have hfmem : f ∈ m.fields := List.mem_of_find?_eq_some hf
            obtain ⟨f2, hg2, hrev2, hrel2, hrm2, hrmf2⟩ :=
              reverseCoherent_spec hco hm hfmem hrev hacc
            simp [hg2, hrev2, hrel2, hrm2, hrmf2, hacc, hm3]
      · rename_i hrev
        cases h
        simp [hf, hm3, hrev]

/-- On a coherent registry the segment walk is stable under
re-translation. -/
theorem translateSegments_idem {s : Schema} (hco : reverseCoherentB s = true) :
    ∀ (l : List String) (m : ModelMeta), m ∈ s.models →
      ∀ l2, translateSegments s m l = some l2 → translateSegments s m l2 = some l2 := by
  intro l
  induction l with
  | nil =>
      intro m hm l2 h
      simp only [translateSegments] at h
      cases h
      rfl
  | cons v rest ih =>
      intro m hm l2 h
      simp only [translateSegments] at h
      cases hstep : segStep s m v with
      | none => rw [hstep] at h; exact absurd h (by simp)
      | some p =>
          obtain ⟨v2, m2⟩ := p
          simp only [hstep] at h
          cases hrest : translateSegments s m2 rest with
          | none => rw [hrest] at h; exact absurd h (by simp)
          | some rest2 =>
              simp only [hrest, Option.map_some'] at h
              cases h
              have hstep2 := segStep_idem hco hm hstep
              have hm2 : m2 ∈ s.models := segStep_mem hm hstep
              have hrest2 := ih m2 hm2 rest2 hrest
              simp [translateSegments, hstep2, hrest2]

/-- On a coherent registry the whole translation is stable under
re-translation. -/
theorem translate_expand_fields_idem {s : Schema} (hco : reverseCoherentB s = true)
    {m : ModelMeta} (hm : m ∈ s.models) :
    ∀ ps ps2, translate_expand_fields s m ps = some ps2 →
      translate_expand_fields s m ps2 = some ps2 := by
  intro ps
  induction ps with
  | nil =>
      intro ps2 h
      simp only [translate_expand_fields] at h
      cases h
      rfl
  | cons p rest ih =>
      intro ps2 h
      simp only [translate_expand_fields] at h
      cases hp : translateSegments s m p with
      | none => rw [hp] at h; exact absurd h (by simp)
      | some p2 =>
          simp only [hp] at h
          cases hr : translate_expand_fields s m rest with
          | none => rw [hr] at h; exact absurd h (by simp)
          | some rest2 =>
              simp only [hr, Option.map_some'] at h
              cases h
              have hp2 := translateSegments_idem hco p m hm p2 hp
              have hr2 := ih rest2 hr
              simp [translate_expand_fields, hp2, hr2]

/-- Claim C7: expansion resolution is a pure function of the entity type
and the raw paths (in the embedding, `translate_expand_fields` and
`get_serializer_class` are functions of exactly these inputs), and on a
registry whose reverse accessors are coherently registered it is
idempotent: re-resolving the resolved paths yields them unchanged, and a
repeated resolution produces the same output-shape descriptor. -/
theorem expand_resolution_deterministic (s : Schema) (m : ModelMeta)
    (hco : reverseCoherentB s = true) (hm : m ∈ s.models)
    (ps ps2 : List (List String)) (h : translate_expand_fields s m ps = some ps2)
    (td : Option TreeData) :
    translate_expand_fields s m ps2 = some ps2 ∧
    ∀ ps3, translate_expand_fields s m ps2 = some ps3 →
      ps3 = ps2 ∧
        get_serializer_class m.name (some ps3) td =
          get_serializer_class m.name (some ps2) td := by
  have h1 := translate_expand_fields_idem hco hm ps ps2 h
  refine ⟨h1, ?_⟩
  intro ps3 h2
  rw [h1] at h2
  cases h2
  exact ⟨rfl, rfl⟩

/-- Witness for claim C7: re-resolving the resolved paths of the blog
registry returns them unchanged. -/
theorem expand_resolution_deterministic_witness :
    translate_expand_fields blogSchema userMeta [["posts"], ["profile"]] =
      some [["posts"], ["profile"]] :=
  (expand_resolution_deterministic blogSchema userMeta rfl (by decide)
    [["post_set"], ["profile"]] [["posts"], ["profile"]] rfl none).1
